import Mathlib

/-!
Verification of the tunl.cc reverse-tunnel service against its
specification.  Each section embeds one part of the TypeScript source
(`src/server/utils/validation.ts`, `src/server/tunnel-manager.ts`,
`src/server/http.ts`, `src/server/websocket.ts`, `src/cli/proxy.ts`,
`src/cli/tunnel-client.ts`) as executable Lean definitions, and proves
or refutes the spec's claims about it.
-/

namespace Tunl

/-! ## Subdomain validation (`src/server/utils/validation.ts`) -/

/-- ASCII lower-casing of a character, as JS `toLowerCase` acts on the
ASCII range used by subdomains. -/
def toLowerChar (c : Char) : Char :=
  if 'A' ≤ c ∧ c ≤ 'Z' then Char.ofNat (c.toNat + 32) else c

/-- `s.toLowerCase()` on strings. -/
def toLowerStr (s : String) : String :=
  ⟨s.data.map toLowerChar⟩

/-- The `RESERVED_SUBDOMAINS` array of `validation.ts`. -/
def RESERVED_SUBDOMAINS : List String :=
  ["www", "api", "admin", "dashboard", "app", "mail", "ftp", "localhost",
   "webmail", "smtp", "pop", "ns", "dns", "support", "help", "secure",
   "ssl", "vpn"]

/-- The `PROFANITY_LIST` array of `validation.ts` (empty in the source). -/
def PROFANITY_LIST : List String := []

/-- A character matched by the regex class `[a-z0-9]` under the `/i`
(case-insensitive) flag. -/
def isAlphaNumI (c : Char) : Bool :=
  ('a' ≤ c && c ≤ 'z') || ('A' ≤ c && c ≤ 'Z') || ('0' ≤ c && c ≤ '9')

/-- A character matched by `[a-z0-9-]` under `/i`. -/
def isAlphaNumDashI (c : Char) : Bool :=
  isAlphaNumI c || c == '-'

/-- Matcher for the suffix regex `([a-z0-9-]*[a-z0-9])?$` under `/i`:
either nothing remains, or everything up to the last character is in
`[a-z0-9-]` and the last character is in `[a-z0-9]`. -/
def regexTail : List Char → Bool
  | [] => true
  | [c] => isAlphaNumI c
  | c :: rest => isAlphaNumDashI c && regexTail rest

/-- Matcher for the whole anchored regex
`/^[a-z0-9]([a-z0-9-]*[a-z0-9])?$/i` of `validation.ts`. -/
def subdomainRegexMatch : List Char → Bool
  | [] => false
  | c :: rest => isAlphaNumI c && regexTail rest

/-- `isValidSubdomain` of `validation.ts`: length check, format regex,
reserved-list check, profanity check, in the source's order. -/
def isValidSubdomain (s : String) : Bool :=
  if s.length < 3 || s.length > 63 then false
  else if !(subdomainRegexMatch s.data) then false
  else if toLowerStr s ∈ RESERVED_SUBDOMAINS then false
  else if PROFANITY_LIST.any
      (fun w => decide (w.data <:+: (toLowerStr s).data)) then false
  else true

/-- The spec's reading of the format rule: non-empty, every character
alphanumeric or hyphen (case-insensitively), and the first and last
characters alphanumeric. -/
def specFormatMatch (l : List Char) : Prop :=
  l ≠ [] ∧ (∀ c ∈ l, isAlphaNumDashI c = true) ∧
    l.head?.all isAlphaNumI = true ∧ l.getLast?.all isAlphaNumI = true

instance (l : List Char) : Decidable (specFormatMatch l) := by
  unfold specFormatMatch; infer_instance

theorem regexTail_iff (l : List Char) :
    regexTail l = true ↔
      (∀ c ∈ l, isAlphaNumDashI c = true) ∧
        l.getLast?.all isAlphaNumI = true := by
  induction l with
  | nil => simp [regexTail, Option.all]
  | cons c rest ih =>
    cases rest with
    | nil =>
      simp only [regexTail, List.mem_singleton, List.getLast?_singleton,
        Option.all, isAlphaNumDashI, Bool.or_eq_true]
      constructor
      · intro h
        refine ⟨?_, h⟩
        intro x hx
        subst hx
        exact Or.inl h
      · rintro ⟨-, h⟩
        exact h
    | cons d rest' =>
      simp only [regexTail, Bool.and_eq_true, ih, List.forall_mem_cons,
        List.getLast?_cons_cons, isAlphaNumDashI, Bool.or_eq_true]
      tauto

set_option maxRecDepth 2000 in
theorem subdomainRegexMatch_iff (l : List Char) :
    subdomainRegexMatch l = true ↔ specFormatMatch l := by
  cases l with
  | nil => simp [subdomainRegexMatch, specFormatMatch]
  | cons c rest =>
    simp only [subdomainRegexMatch, Bool.and_eq_true, regexTail_iff,
      specFormatMatch, List.forall_mem_cons, List.head?_cons, Option.all,
      ne_eq, reduceCtorEq, not_false_eq_true, true_and,
      isAlphaNumDashI, Bool.or_eq_true]
    cases rest with
    | nil =>
      simp only [List.getLast?_singleton, List.getLast?_nil, Option.all,
        List.not_mem_nil, false_implies, implies_true, true_and, and_true]
      tauto
    | cons d r =>
      simp only [List.getLast?_cons_cons, List.forall_mem_cons]
      tauto

theorem toLowerStr_length (s : String) :
    (toLowerStr s).length = s.length := by
  show (s.data.map toLowerChar).length = s.data.length
  exact List.length_map _ _

theorem reserved_short :
    ∀ w ∈ RESERVED_SUBDOMAINS, w.length ≤ 9 := by decide

theorem isValidSubdomain_iff (s : String) :
    isValidSubdomain s = true ↔
      3 ≤ s.length ∧ s.length ≤ 63 ∧ specFormatMatch s.data ∧
        toLowerStr s ∉ RESERVED_SUBDOMAINS := by
  unfold isValidSubdomain
  split_ifs with h1 h2 h3 h4
  · simp only [Bool.false_eq_true, false_iff]
    rintro ⟨ha, hb, -, -⟩
    simp only [Bool.or_eq_true, decide_eq_true_eq] at h1
    omega
  · simp only [Bool.false_eq_true, false_iff]
    rintro ⟨-, -, hf, -⟩
    have hm := (subdomainRegexMatch_iff s.data).mpr hf
    simp [hm] at h2
  · simp only [Bool.false_eq_true, false_iff]
    rintro ⟨-, -, -, hn⟩
    exact hn h3
  · simp [PROFANITY_LIST] at h4
  · simp only [true_iff]
    simp only [Bool.or_eq_true, decide_eq_true_eq, not_or, not_lt] at h1
    refine ⟨h1.1, h1.2, ?_, h3⟩
    rw [← subdomainRegexMatch_iff]
    simpa using h2

/-- C6: `isValidSubdomain s` returns true iff the length of `s` is between
3 and 63 inclusive, `s` matches the format regex
`[a-z0-9]([a-z0-9-]*[a-z0-9])?` case-insensitively, and `lowercase(s)` is
not in the reserved list; it accepts "abc", "a-b-c", "a1b2c3" and any
valid 63-character label, and rejects "ab", "-abc", "abc-", "WWW" in any
case, every 64-character string, and "a_b". -/
theorem C6_isValidSubdomain_spec :
    (∀ s : String, isValidSubdomain s = true ↔
      3 ≤ s.length ∧ s.length ≤ 63 ∧ specFormatMatch s.data ∧
        toLowerStr s ∉ RESERVED_SUBDOMAINS) ∧
    isValidSubdomain "abc" = true ∧
    isValidSubdomain "a-b-c" = true ∧
    isValidSubdomain "a1b2c3" = true ∧
    (∀ s : String, s.length = 63 → specFormatMatch s.data →
      isValidSubdomain s = true) ∧
    isValidSubdomain "ab" = false ∧
    isValidSubdomain "-abc" = false ∧
    isValidSubdomain "abc-" = false ∧
    (∀ s : String, toLowerStr s = "www" → isValidSubdomain s = false) ∧
    (∀ s : String, s.length = 64 → isValidSubdomain s = false) ∧
    isValidSubdomain "a_b" = false := by
  refine ⟨isValidSubdomain_iff, by decide, by decide, by decide, ?_,
    by decide, by decide, by decide, ?_, ?_, by decide⟩
  · intro s h63 hf
    rw [isValidSubdomain_iff]
    refine ⟨by omega, by omega, hf, ?_⟩
    intro hm
    have hlen := reserved_short _ hm
    rw [toLowerStr_length] at hlen
    omega
  · intro s hw
    by_cases hv : isValidSubdomain s = true
    · exfalso
      rw [isValidSubdomain_iff] at hv
      exact hv.2.2.2 (by rw [hw]; decide)
    · simpa using hv
  · intro s h64
    by_cases hv : isValidSubdomain s = true
    · rw [isValidSubdomain_iff] at hv
      obtain ⟨-, hb, -, -⟩ := hv
      omega
    · simpa using hv

/-- Witness for C6 at concrete inputs. -/
theorem C6_isValidSubdomain_spec_witness :
    isValidSubdomain "demo-app" = true ∧ isValidSubdomain "wWw" = false :=
  ⟨(C6_isValidSubdomain_spec.1 "demo-app").mpr (by decide),
   C6_isValidSubdomain_spec.2.2.2.2.2.2.2.2.1 "wWw" (by decide)⟩

/-! ## Client reconnection backoff (`src/cli/tunnel-client.ts`)

JS numbers on the values involved (1000 · 1.5ᵏ capped at 30000) are exact
dyadic rationals, so the delay arithmetic is modelled on `ℚ`. -/

/-- `Math.min` on two numbers. -/
def jsMin (a b : ℚ) : ℚ := if a ≤ b then a else b

structure ReconnectOptions where
  initialDelay : ℚ
  maxDelay : ℚ
  factor : ℚ

/-- `this.reconnectOptions` as set in the `TunnelClient` constructor:
`{ initialDelay: 1000, maxDelay: 30000, factor: 1.5 }`. -/
def reconnectOptions : ReconnectOptions :=
  { initialDelay := 1000, maxDelay := 30000, factor := 3 / 2 }

/-- The reconnection-related fields of `TunnelClient`. -/
structure ClientReconnectState where
  reconnectAttempts : ℕ
  reconnectDelay : ℚ

/-- Constructor state: `reconnectAttempts = 0`, `reconnectDelay = 1000`. -/
def initialClientState : ClientReconnectState := ⟨0, 1000⟩

/-- One failed reconnection attempt: `reconnect()` increments
`reconnectAttempts`, and its `connect().catch` handler then sets
`reconnectDelay = Math.min(reconnectDelay * factor, maxDelay)`. -/
def failedAttemptStep (s : ClientReconnectState) : ClientReconnectState :=
  { reconnectAttempts := s.reconnectAttempts + 1,
    reconnectDelay :=
      jsMin (s.reconnectDelay * reconnectOptions.factor)
        reconnectOptions.maxDelay }

/-- `handleRegistered`: when `reconnectAttempts > 0`, reset the counter to
0 and the delay to `initialDelay`; otherwise leave both unchanged. -/
def registeredStep (s : ClientReconnectState) : ClientReconnectState :=
  if 0 < s.reconnectAttempts then
    { reconnectAttempts := 0,
      reconnectDelay := reconnectOptions.initialDelay }
  else s

inductive ClientEvent
  | failedAttempt
  | registered

def clientStep (s : ClientReconnectState) :
    ClientEvent → ClientReconnectState
  | .failedAttempt => failedAttemptStep s
  | .registered => registeredStep s

def runClient (evs : List ClientEvent) : ClientReconnectState :=
  evs.foldl clientStep initialClientState

/-- Invariant maintained by the client's reconnect bookkeeping. -/
def ClientInv (s : ClientReconnectState) : Prop :=
  1000 ≤ s.reconnectDelay ∧ s.reconnectDelay ≤ 30000 ∧
    (s.reconnectAttempts = 0 → s.reconnectDelay = 1000)

theorem clientStep_inv (s : ClientReconnectState) (hs : ClientInv s)
    (e : ClientEvent) : ClientInv (clientStep s e) := by
  obtain ⟨h1, h2, h3⟩ := hs
  cases e with
  | failedAttempt =>
    simp only [clientStep, failedAttemptStep, jsMin, reconnectOptions,
      ClientInv]
    refine ⟨?_, ?_, ?_⟩
    · split_ifs with h
      · linarith
      · norm_num
    · split_ifs with h
      · exact h
      · norm_num
    · intro h
      simp at h
  | registered =>
    simp only [clientStep, registeredStep, reconnectOptions]
    split_ifs with h
    · exact ⟨by norm_num, by norm_num, fun _ => rfl⟩
    · exact ⟨h1, h2, h3⟩

theorem runClient_inv (evs : List ClientEvent) :
    ClientInv (runClient evs) := by
  have step : ∀ (l : List ClientEvent) (s : ClientReconnectState),
      ClientInv s → ClientInv (l.foldl clientStep s) := by
    intro l
    induction l with
    | nil => intro s hs; exact hs
    | cons e rest ih =>
      intro s hs
      exact ih _ (clientStep_inv s hs e)
  exact step evs initialClientState
    ⟨by norm_num [initialClientState], by norm_num [initialClientState],
      fun _ => rfl⟩

/-- C7 counterexample: the source caps the reconnect delay at
`maxDelay = 30000` ms, not the claimed 60 s.  After nine failed attempts
the delay is 30000 ms, whereas the claimed recurrence
`min(current × 1.5, 60000)` would give 2460375/64 = 38443.359375 ms. -/
theorem C7_backoff_counterexample :
    (runClient (List.replicate 9 ClientEvent.failedAttempt)).reconnectDelay
        = 30000 ∧
    jsMin
        ((runClient
          (List.replicate 8 ClientEvent.failedAttempt)).reconnectDelay
            * (3 / 2)) 60000 = 2460375 / 64 ∧
    (runClient (List.replicate 9 ClientEvent.failedAttempt)).reconnectDelay
      ≠ jsMin
        ((runClient
          (List.replicate 8 ClientEvent.failedAttempt)).reconnectDelay
            * (3 / 2)) 60000 := by
  refine ⟨?_, ?_, ?_⟩ <;>
    norm_num [runClient, clientStep, failedAttemptStep, initialClientState,
      reconnectOptions, jsMin, List.replicate, List.foldl]

/-- C7 (amended): the client's reconnect delays are non-decreasing with
next-delay = min(current × 1.5, maxDelay), starting from
initialDelay = 1000 ms with maxDelay = 30000 ms (not 60 s), and both the
delay and the attempt counter are back at their initial values after a
successful Registered message. -/
theorem C7_backoff_amended :
    reconnectOptions.initialDelay = 1000 ∧
    reconnectOptions.factor = 3 / 2 ∧
    reconnectOptions.maxDelay = 30000 ∧
    initialClientState.reconnectDelay = reconnectOptions.initialDelay ∧
    initialClientState.reconnectAttempts = 0 ∧
    (∀ evs : List ClientEvent,
      (failedAttemptStep (runClient evs)).reconnectDelay =
          jsMin ((runClient evs).reconnectDelay * (3 / 2)) 30000 ∧
        (runClient evs).reconnectDelay ≤
          (failedAttemptStep (runClient evs)).reconnectDelay ∧
        (failedAttemptStep (runClient evs)).reconnectDelay ≤ 30000) ∧
    (∀ evs : List ClientEvent,
      runClient (evs ++ [ClientEvent.registered]) = initialClientState) := by
  refine ⟨rfl, rfl, rfl, rfl, rfl, ?_, ?_⟩
  · intro evs
    obtain ⟨h1, h2, -⟩ := runClient_inv evs
    refine ⟨rfl, ?_, ?_⟩
    · simp only [failedAttemptStep, jsMin, reconnectOptions]
      split_ifs with h
      · linarith
      · exact h2
    · simp only [failedAttemptStep, jsMin, reconnectOptions]
      split_ifs with h
      · exact h
      · norm_num
  · intro evs
    have hrun : runClient (evs ++ [ClientEvent.registered]) =
        registeredStep (runClient evs) := by
      simp [runClient, List.foldl_append, clientStep]
    rw [hrun]
    obtain ⟨-, -, h3⟩ := runClient_inv evs
    simp only [registeredStep]
    split_ifs with h
    · rfl
    · have hz : (runClient evs).reconnectAttempts = 0 := by omega
      cases hs : runClient evs with
      | mk a d =>
        rw [hs] at hz h3
        simp only at hz h3
        simp [initialClientState, hz, h3 hz]

/-- Witness for C7's amended statement at a concrete trace. -/
theorem C7_backoff_amended_witness :
    runClient ([ClientEvent.failedAttempt] ++ [ClientEvent.registered]) =
      initialClientState :=
  C7_backoff_amended.2.2.2.2.2.2 [ClientEvent.failedAttempt]

/-! ## Pending Request Table (`src/server/tunnel-manager.ts`)

`pendingRequests : Map<string, PendingRequest>` with
`addPendingRequest` / `resolvePendingRequest` / `timeoutRequest`.  A
responder is identified by a number; an emitted HTTP response is recorded
as a status code and body (header copying carries no claim here and is
not modelled). -/

/-- An HTTP response written to a public caller's responder. -/
structure HttpWrite where
  statusCode : Nat
  body : String
deriving DecidableEq

/-- An entry of the `pendingRequests` map (the responder handle). -/
structure PendingEntry where
  resId : Nat
deriving DecidableEq

abbrev PendingTable := List (String × PendingEntry)

/-- `addPendingRequest(requestId, res, timeout, metadata)`:
`pendingRequests.set(requestId, ...)`. -/
def addPendingRequest (t : PendingTable) (requestId : String)
    (e : PendingEntry) : PendingTable :=
  (requestId, e) :: t

/-- Result of `resolvePendingRequest`: the returned boolean, the table
afterwards, and the HTTP response written, if any. -/
structure ResolveResult where
  returned : Bool
  table : PendingTable
  write : Option HttpWrite
deriving DecidableEq

/-- `statusCode || 200` (0 and `undefined` are falsy in JS). -/
def jsOrStatus (statusCode : Option Nat) : Nat :=
  match statusCode with
  | none => 200
  | some 0 => 200
  | some n => n

/-- `resolvePendingRequest(requestId, statusCode, headers?, body?)`:
returns false if the id is unknown; otherwise clears the timeout, writes
`statusCode || 200` with `body || ''` to the stored responder, deletes
the entry and returns true. -/
def resolvePendingRequest (t : PendingTable) (requestId : String)
    (statusCode : Option Nat) (body : Option String) : ResolveResult :=
  match t.lookup requestId with
  | none => ⟨false, t, none⟩
  | some _ =>
    ⟨true, t.filter (fun p => p.1 != requestId),
      some ⟨jsOrStatus statusCode, body.getD ""⟩⟩

/-- `timeoutRequest(requestId)`: if the id is present, write
`504 Gateway Timeout` and delete the entry; otherwise do nothing. -/
def timeoutRequest (t : PendingTable) (requestId : String) :
    PendingTable × Option HttpWrite :=
  match t.lookup requestId with
  | none => (t, none)
  | some _ =>
    (t.filter (fun p => p.1 != requestId), some ⟨504, "Gateway Timeout"⟩)

theorem lookup_filter_ne (t : PendingTable) (requestId : String) :
    (t.filter (fun p => p.1 != requestId)).lookup requestId = none := by
  induction t with
  | nil => rfl
  | cons p rest ih =>
    obtain ⟨k, v⟩ := p
    by_cases h : k = requestId
    · simp [List.filter, h, ih]
    · have hb : (k != requestId) = true := by simpa using h
      have hb2 : (requestId == k) = false := by
        simpa [beq_eq_false_iff_ne] using Ne.symm h
      simp [List.filter, hb, List.lookup, hb2, ih]

/-- A terminating call directed at one request id. -/
inductive TermOp
  | resolveOp (statusCode : Option Nat) (body : Option String)
  | timeoutOp

/-- Run a sequence of terminators against the table, counting the HTTP
responses written to the given request's responder. -/
def runTermOps (t : PendingTable) (requestId : String) :
    List TermOp → Nat
  | [] => 0
  | .resolveOp sc b :: rest =>
    let r := resolvePendingRequest t requestId sc b
    (if r.write.isSome then 1 else 0) + runTermOps r.table requestId rest
  | .timeoutOp :: rest =>
    let r := timeoutRequest t requestId
    (if r.2.isSome then 1 else 0) + runTermOps r.1 requestId rest

theorem runTermOps_of_absent (ops : List TermOp) (t : PendingTable)
    (requestId : String) (h : t.lookup requestId = none) :
    runTermOps t requestId ops = 0 := by
  induction ops generalizing t with
  | nil => rfl
  | cons op rest ih =>
    cases op with
    | resolveOp sc b => simp [runTermOps, resolvePendingRequest, h, ih t h]
    | timeoutOp => simp [runTermOps, timeoutRequest, h, ih t h]

theorem runTermOps_le_one (ops : List TermOp) (t : PendingTable)
    (requestId : String) : runTermOps t requestId ops ≤ 1 := by
  cases hl : t.lookup requestId with
  | none => simp [runTermOps_of_absent ops t requestId hl]
  | some e =>
    cases ops with
    | nil => simp [runTermOps]
    | cons op rest =>
      cases op with
      | resolveOp sc b =>
        simp only [runTermOps, resolvePendingRequest, hl]
        rw [runTermOps_of_absent rest _ requestId (lookup_filter_ne t _)]
        simp
      | timeoutOp =>
        simp only [runTermOps, timeoutRequest, hl]
        rw [runTermOps_of_absent rest _ requestId (lookup_filter_ne t _)]
        simp

/-- C2: for every requestId in the Pending Request Table, at most one
terminating call writes an HTTP response and removes the entry; later
terminators are no-ops; `resolve` on an unknown id returns false without
writing or changing the table, and `timeout` on an unknown id writes
nothing. -/
theorem C2_pending_single_terminator :
    (∀ (t : PendingTable) (id : String) (sc : Option Nat)
        (b : Option String), t.lookup id = none →
      resolvePendingRequest t id sc b = ⟨false, t, none⟩) ∧
    (∀ (t : PendingTable) (id : String), t.lookup id = none →
      timeoutRequest t id = (t, none)) ∧
    (∀ (t : PendingTable) (id : String) (e : PendingEntry)
        (sc : Option Nat) (b : Option String), t.lookup id = some e →
      (resolvePendingRequest t id sc b).returned = true ∧
        (resolvePendingRequest t id sc b).write =
          some ⟨jsOrStatus sc, b.getD ""⟩ ∧
        (resolvePendingRequest t id sc b).table.lookup id = none) ∧
    (∀ (t : PendingTable) (id : String) (e : PendingEntry),
        t.lookup id = some e →
      (timeoutRequest t id).2 = some ⟨504, "Gateway Timeout"⟩ ∧
        (timeoutRequest t id).1.lookup id = none) ∧
    (∀ (t : PendingTable) (id : String) (ops : List TermOp),
      runTermOps t id ops ≤ 1) := by
  refine ⟨?_, ?_, ?_, ?_, ?_⟩
  · intro t id sc b h
    simp [resolvePendingRequest, h]
  · intro t id h
    simp [timeoutRequest, h]
  · intro t id e sc b h
    refine ⟨?_, ?_, ?_⟩ <;>
      simp [resolvePendingRequest, h, lookup_filter_ne]
  · intro t id e h
    refine ⟨?_, ?_⟩ <;> simp [timeoutRequest, h, lookup_filter_ne]
  · intro t id ops
    exact runTermOps_le_one ops t id

/-- Witness for C2 at a concrete table and id. -/
theorem C2_pending_single_terminator_witness :
    resolvePendingRequest [] "a0b1" (some 200) none = ⟨false, [], none⟩ ∧
    runTermOps [("a0b1", ⟨7⟩)] "a0b1"
      [TermOp.timeoutOp, TermOp.timeoutOp] ≤ 1 :=
  ⟨C2_pending_single_terminator.1 [] "a0b1" (some 200) none rfl,
   C2_pending_single_terminator.2.2.2.2 [("a0b1", ⟨7⟩)] "a0b1"
     [TermOp.timeoutOp, TermOp.timeoutOp]⟩

/-! ## Edge Dispatcher per-request lifecycle (`src/server/http.ts`)

`forwardRequest` (the `req.on('end')` handler): arm a `DEFAULT_TIMEOUT`
timer whose callback writes `504 Gateway Timeout` and deletes the pending
entry; add the entry; `tunnel.ws.send`, and if send throws, clear the
timer, delete the entry and write `502 Bad Gateway`.  A later `response`
control message reaches `resolvePendingRequest`, which relays the
tunnel's response iff the entry is still present. -/

def DEFAULT_TIMEOUT : Nat := 30000

/-- Outcome observed by the public caller of a forwarded request. -/
inductive Outcome
  | relayed (statusCode : Nat)
  | gatewayTimeout
  | badGateway
deriving DecidableEq

/-- Per-request dispatcher state once the body is buffered: whether the
`pendingRequests` entry is present, whether the 30 s timer is still armed
(neither cleared nor fired), and the responses written to the caller. -/
structure ReqState where
  pending : Bool
  timerArmed : Bool
  written : List Outcome
deriving DecidableEq

/-- State right after the `try { tunnel.ws.send(...) }` block: on success
the entry is pending with the timer armed; if send raises, the catch
clears the timer, deletes the entry and writes `502 Bad Gateway`. -/
def afterSend (sendRaises : Bool) : ReqState :=
  if sendRaises then ⟨false, false, [Outcome.badGateway]⟩
  else ⟨true, true, []⟩

inductive ReqEvent
  | timerFire
  | responseArrive (statusCode : Nat)
deriving DecidableEq

/-- Asynchronous continuation of `forwardRequest`: the timeout callback
(which can only run while armed) writes 504 and deletes the entry; an
arriving `Response` resolves the entry — clearing the timer, writing the
relayed response and deleting the entry — and is dropped silently when
the entry is gone. -/
def reqStep (s : ReqState) : ReqEvent → ReqState
  | .timerFire =>
    if s.timerArmed then ⟨false, false, s.written ++ [Outcome.gatewayTimeout]⟩
    else s
  | .responseArrive c =>
    if s.pending then ⟨false, false, s.written ++ [Outcome.relayed c]⟩
    else s

def runReq (init : ReqState) (evs : List ReqEvent) : ReqState :=
  evs.foldl reqStep init

/-- Once the entry is gone and the timer dead, nothing changes. -/
theorem runReq_settled (evs : List ReqEvent) (s : ReqState)
    (hp : s.pending = false) (ht : s.timerArmed = false) :
    runReq s evs = s := by
  induction evs with
  | nil => rfl
  | cons e rest ih =>
    have hstep : reqStep s e = s := by
      cases e <;> simp [reqStep, hp, ht]
    show runReq (reqStep s e) rest = s
    rw [hstep]
    exact ih

/-- Dispatcher invariant: either the request is still pending (timer
armed, nothing written), or it is settled with exactly one outcome
written, which is a relayed response or the 504. -/
def GoodReq (s : ReqState) : Prop :=
  s = ⟨true, true, []⟩ ∨
    (s.pending = false ∧ s.timerArmed = false ∧
      ∃ o, s.written = [o] ∧
        (o = Outcome.gatewayTimeout ∨ ∃ c, o = Outcome.relayed c))

theorem reqStep_good (s : ReqState) (h : GoodReq s) (e : ReqEvent) :
    GoodReq (reqStep s e) := by
  rcases h with rfl | ⟨hp, ht, o, hw, ho⟩
  · cases e with
    | timerFire =>
      right
      exact ⟨rfl, rfl, Outcome.gatewayTimeout, by simp [reqStep], Or.inl rfl⟩
    | responseArrive c =>
      right
      exact ⟨rfl, rfl, Outcome.relayed c, by simp [reqStep], Or.inr ⟨c, rfl⟩⟩
  · have hstep : reqStep s e = s := by
      cases e <;> simp [reqStep, hp, ht]
    rw [hstep]
    exact Or.inr ⟨hp, ht, o, hw, ho⟩

theorem runReq_good (evs : List ReqEvent) :
    GoodReq (runReq (afterSend false) evs) := by
  have step : ∀ (l : List ReqEvent) (s : ReqState),
      GoodReq s → GoodReq (l.foldl reqStep s) := by
    intro l
    induction l with
    | nil => intro s hs; exact hs
    | cons e rest ih => intro s hs; exact ih _ (reqStep_good s hs e)
  exact step evs _ (Or.inl rfl)

theorem runReq_timerFire_settles (evs : List ReqEvent) (s : ReqState)
    (hs : GoodReq s) (hin : ReqEvent.timerFire ∈ evs) :
    (runReq s evs).pending = false ∧ (runReq s evs).timerArmed = false ∧
      (runReq s evs).written.length = 1 := by
  induction evs generalizing s with
  | nil => cases hin
  | cons e rest ih =>
    have hunfold : runReq s (e :: rest) = runReq (reqStep s e) rest := rfl
    rcases List.mem_cons.mp hin with rfl | hin'
    · rw [hunfold]
      rcases hs with rfl | ⟨hp, ht, o, hw, -⟩
      · rw [show reqStep ⟨true, true, []⟩ ReqEvent.timerFire =
              ⟨false, false, [Outcome.gatewayTimeout]⟩ from by simp [reqStep],
            runReq_settled rest _ rfl rfl]
        exact ⟨rfl, rfl, rfl⟩
      · rw [show reqStep s ReqEvent.timerFire = s from by simp [reqStep, ht],
            runReq_settled rest s hp ht]
        exact ⟨hp, ht, by simp [hw]⟩
    · rw [hunfold]
      exact ih _ (reqStep_good s hs e) hin'

/-- C1: each public request forwarded by the Edge Dispatcher produces at
most one observed outcome, and exactly one once the 30 s timer fires; the
possible outcomes are exactly the relayed Response, the 504 timeout
(entry deleted) and, when send raises, the 502 (timer cleared, entry
deleted); a send failure settles the request immediately with the single
502 outcome. -/
theorem C1_exactly_one_outcome :
    DEFAULT_TIMEOUT = 30000 ∧
    (∀ evs : List ReqEvent,
      runReq (afterSend true) evs = ⟨false, false, [Outcome.badGateway]⟩) ∧
    (∀ evs : List ReqEvent,
      (runReq (afterSend false) evs).written.length ≤ 1) ∧
    (∀ evs : List ReqEvent, ReqEvent.timerFire ∈ evs →
      (runReq (afterSend false) evs).written.length = 1 ∧
        (runReq (afterSend false) evs).pending = false) ∧
    (∀ (evs : List ReqEvent) (o : Outcome),
      o ∈ (runReq (afterSend false) evs).written →
        o = Outcome.gatewayTimeout ∨ ∃ c, o = Outcome.relayed c) ∧
    (∀ (c : Nat) (evs : List ReqEvent),
      runReq (afterSend false) (ReqEvent.responseArrive c :: evs) =
        ⟨false, false, [Outcome.relayed c]⟩) ∧
    (∀ evs : List ReqEvent,
      runReq (afterSend false) (ReqEvent.timerFire :: evs) =
        ⟨false, false, [Outcome.gatewayTimeout]⟩) := by
  refine ⟨rfl, ?_, ?_, ?_, ?_, ?_, ?_⟩
  · intro evs
    exact runReq_settled evs _ rfl rfl
  · intro evs
    rcases runReq_good evs with h | ⟨-, -, o, hw, -⟩
    · simp [h]
    · simp [hw]
  · intro evs hin
    obtain ⟨h1, h2, h3⟩ :=
      runReq_timerFire_settles evs (afterSend false) (Or.inl rfl) hin
    exact ⟨h3, h1⟩
  · intro evs o ho
    rcases runReq_good evs with h | ⟨-, -, o', hw, ho'⟩
    · rw [h] at ho
      cases ho
    · rw [hw] at ho
      rcases List.mem_singleton.mp ho with rfl
      exact ho'
  · intro c evs
    have : reqStep (afterSend false) (ReqEvent.responseArrive c) =
        ⟨false, false, [Outcome.relayed c]⟩ := by
      simp [afterSend, reqStep]
    show runReq (reqStep (afterSend false) _) evs = _
    rw [this, runReq_settled evs _ rfl rfl]
  · intro evs
    have : reqStep (afterSend false) ReqEvent.timerFire =
        ⟨false, false, [Outcome.gatewayTimeout]⟩ := by
      simp [afterSend, reqStep]
    show runReq (reqStep (afterSend false) _) evs = _
    rw [this, runReq_settled evs _ rfl rfl]

/-- Witness for C1 at a concrete event trace. -/
theorem C1_exactly_one_outcome_witness :
    (runReq (afterSend false)
        [ReqEvent.timerFire, ReqEvent.responseArrive 200]).written.length
      = 1 ∧
    (runReq (afterSend false)
        [ReqEvent.timerFire, ReqEvent.responseArrive 200]).pending
      = false :=
  C1_exactly_one_outcome.2.2.2.1
    [ReqEvent.timerFire, ReqEvent.responseArrive 200] (by decide)

/-! ## Client fatal-error handling (`src/cli/tunnel-client.ts`) -/

/-- The `fatalErrors` array in `handleError`. -/
def fatalErrors : List String :=
  ["subdomain already taken", "invalid subdomain", "invalid api key",
   "tunnel limit reached", "registration failed", "rate limit exceeded",
   "message too large"]

/-- `fatalErrors.some(error => msg.message.toLowerCase().includes(error))`. -/
def isFatalError (message : String) : Bool :=
  fatalErrors.any (fun e => decide (e.data <:+: (toLowerStr message).data))

/-- The `TunnelClient` flags the close handler consults. -/
structure ClientFlags where
  hasFatalError : Bool
  shouldReconnect : Bool
deriving DecidableEq

/-- `handleError`: on a fatal server Error message set `hasFatalError`
and clear `shouldReconnect` (then close and exit 1); otherwise leave the
flags unchanged. -/
def handleError (s : ClientFlags) (message : String) : ClientFlags :=
  if isFatalError message then
    { hasFatalError := true, shouldReconnect := false }
  else s

inductive CloseAction
  | exitOne
  | exitZero
  | reconnect
deriving DecidableEq

/-- The `ws.on('close', ...)` handler: with a fatal error recorded, exit
with code 1 and do not reconnect; on a clean code-1000 close with
reconnection disabled, exit 0; otherwise reconnect iff
`shouldReconnect`. -/
def onClose (s : ClientFlags) (code : Nat) : CloseAction :=
  if s.hasFatalError then CloseAction.exitOne
  else if code == 1000 && !s.shouldReconnect then CloseAction.exitZero
  else if s.shouldReconnect then CloseAction.reconnect
  else CloseAction.exitZero

/-- C8: a server Error message is fatal iff its text contains,
case-insensitively, one of the seven listed substrings; after a fatal
error the close handler exits with code 1 (no reconnect) whatever the
close code; with reconnection enabled and no fatal error, any close
reconnects. -/
theorem C8_fatal_error_handling :
    (∀ m : String, isFatalError m = true ↔
      ∃ e ∈ fatalErrors, e.data <:+: (toLowerStr m).data) ∧
    fatalErrors =
      ["subdomain already taken", "invalid subdomain", "invalid api key",
       "tunnel limit reached", "registration failed",
       "rate limit exceeded", "message too large"] ∧
    (∀ (s : ClientFlags) (m : String) (code : Nat),
      isFatalError m = true →
        onClose (handleError s m) code = CloseAction.exitOne) ∧
    (∀ (s : ClientFlags) (code : Nat),
      s.shouldReconnect = true → s.hasFatalError = false →
        onClose s code = CloseAction.reconnect) := by
  refine ⟨?_, rfl, ?_, ?_⟩
  · intro m
    simp [isFatalError, List.any_eq_true]
  · intro s m code hf
    simp [handleError, hf, onClose]
  · intro s code hr hn
    simp [onClose, hr, hn]

/-- Witness for C8 at a concrete message and flag state. -/
theorem C8_fatal_error_handling_witness :
    onClose (handleError ⟨false, true⟩ "Subdomain already taken") 1008 =
        CloseAction.exitOne ∧
      onClose ⟨false, true⟩ 1006 = CloseAction.reconnect :=
  ⟨C8_fatal_error_handling.2.2.1 ⟨false, true⟩ "Subdomain already taken"
      1008 (by decide),
   C8_fatal_error_handling.2.2.2 ⟨false, true⟩ 1006 rfl rfl⟩

/-! ## Client local proxy (`src/cli/proxy.ts`) -/

def DEFAULT_PROXY_TIMEOUT : Nat := 30000

/-- The response-size cap `100 * 1024 * 1024` in the data handler. -/
def MAX_RESPONSE_BYTES : Nat := 100 * 1024 * 1024

/-- The argument of the `forwardToLocal` callback. -/
structure ProxyResponse where
  statusCode : Nat
  headers : List (String × String)
  body : String
deriving DecidableEq

/-- The `req.on('error')` handler of `forwardToLocal`: a default
502 "Error connecting to local server" overridden for `ECONNREFUSED`
(503), `ETIMEDOUT` (504) and `ENOTFOUND` (502), always with a
`content-type: text/plain` header. -/
def connectionErrorResponse (code : String) (message : String)
    (localPort : Nat) : ProxyResponse :=
  if code = "ECONNREFUSED" then
    ⟨503, [("content-type", "text/plain")],
      "Connection refused. Is your local server running on port "
        ++ toString localPort ++ "?"⟩
  else if code = "ETIMEDOUT" then
    ⟨504, [("content-type", "text/plain")],
      "Connection timeout. Local server on port " ++ toString localPort
        ++ " is not responding."⟩
  else if code = "ENOTFOUND" then
    ⟨502, [("content-type", "text/plain")], "Hostname not found"⟩
  else
    ⟨502, [("content-type", "text/plain")],
      "Error connecting to local server: " ++ message⟩

/-- The `req.on('timeout')` handler (fires after
`DEFAULT_PROXY_TIMEOUT`): destroy the request and call back 504. -/
def localTimeoutResponse : ProxyResponse :=
  ⟨504, [], "Gateway Timeout: Local server took too long to respond"⟩

/-- The `res.on('data')` accumulation of `forwardToLocal`: per chunk,
add its length to `totalBytes`; when the total exceeds 100 MiB, destroy
the request and call back 413 (no further chunks are processed). -/
def accumulateResponse (totalBytes : Nat) :
    List Nat → Option ProxyResponse
  | [] => none
  | c :: rest =>
    if MAX_RESPONSE_BYTES < totalBytes + c then
      some ⟨413, [], "Response too large"⟩
    else accumulateResponse (totalBytes + c) rest

theorem accumulateResponse_eq (sizes : List Nat) (totalBytes : Nat)
    (h : totalBytes ≤ MAX_RESPONSE_BYTES) :
    accumulateResponse totalBytes sizes =
      if MAX_RESPONSE_BYTES < totalBytes + sizes.sum then
        some ⟨413, [], "Response too large"⟩
      else none := by
  induction sizes generalizing totalBytes with
  | nil =>
    simp only [accumulateResponse, List.sum_nil, Nat.add_zero]
    rw [if_neg (by omega)]
  | cons c rest ih =>
    simp only [accumulateResponse, List.sum_cons]
    by_cases hc : MAX_RESPONSE_BYTES < totalBytes + c
    · rw [if_pos hc, if_pos (by omega)]
    · rw [if_neg hc, ih _ (by omega)]
      by_cases hr : MAX_RESPONSE_BYTES < totalBytes + c + rest.sum
      · rw [if_pos hr, if_pos (by omega)]
      · rw [if_neg hr, if_neg (by omega)]

/-- C9: `forwardToLocal` maps `ECONNREFUSED` to a plain-text
503 "Connection refused…", `ETIMEDOUT` and the 30 s local request
timeout to 504, `ENOTFOUND` to 502, any other transport error to 502,
and aborts with 413 exactly when the accumulated response body exceeds
100 MiB. -/
theorem C9_local_error_mapping :
    (∀ (m : String) (p : Nat),
      connectionErrorResponse "ECONNREFUSED" m p =
        ⟨503, [("content-type", "text/plain")],
          "Connection refused. Is your local server running on port "
            ++ toString p ++ "?"⟩) ∧
    (∀ (m : String) (p : Nat),
      (connectionErrorResponse "ETIMEDOUT" m p).statusCode = 504) ∧
    DEFAULT_PROXY_TIMEOUT = 30000 ∧
    localTimeoutResponse.statusCode = 504 ∧
    (∀ (m : String) (p : Nat),
      (connectionErrorResponse "ENOTFOUND" m p).statusCode = 502) ∧
    (∀ (code m : String) (p : Nat),
      code ≠ "ECONNREFUSED" → code ≠ "ETIMEDOUT" → code ≠ "ENOTFOUND" →
        (connectionErrorResponse code m p).statusCode = 502) ∧
    MAX_RESPONSE_BYTES = 100 * 1024 * 1024 ∧
    (∀ sizes : List Nat,
      accumulateResponse 0 sizes =
        if MAX_RESPONSE_BYTES < sizes.sum then
          some ⟨413, [], "Response too large"⟩
        else none) := by
  refine ⟨?_, ?_, rfl, rfl, ?_, ?_, rfl, ?_⟩
  · intro m p
    simp [connectionErrorResponse]
  · intro m p
    simp [connectionErrorResponse]
  · intro m p
    simp [connectionErrorResponse]
  · intro code m p h1 h2 h3
    simp [connectionErrorResponse, h1, h2, h3]
  · intro sizes
    simpa using accumulateResponse_eq sizes 0 (by simp [MAX_RESPONSE_BYTES])

/-- Witness for C9 at a concrete error code and chunk trace. -/
theorem C9_local_error_mapping_witness :
    (connectionErrorResponse "ECONNRESET" "socket hang up" 8080).statusCode
        = 502 ∧
    accumulateResponse 0 [104857601] =
      some ⟨413, [], "Response too large"⟩ := by
  refine ⟨C9_local_error_mapping.2.2.2.2.2.1 "ECONNRESET" "socket hang up"
    8080 (by decide) (by decide) (by decide), ?_⟩
  have h := C9_local_error_mapping.2.2.2.2.2.2.2 [104857601]
  simpa [MAX_RESPONSE_BYTES] using h

/-! ## Request body round-trip (`src/server/http.ts` → `src/cli/proxy.ts`)

The dispatcher buffers the request body and sends
`bodyBuffer.toString('base64')`; the client decodes it with
`Buffer.from(body, 'base64')` and sets `content-length` to the decoded
length.  Bytes are `Nat < 256`. -/

/-- The standard base64 alphabet (index to character). -/
def charOfSextet (n : Nat) : Char :=
  if n < 26 then Char.ofNat (65 + n)
  else if n < 52 then Char.ofNat (97 + (n - 26))
  else if n < 62 then Char.ofNat (48 + (n - 52))
  else if n = 62 then '+'
  else '/'

/-- The inverse alphabet lookup (character to index). -/
def sextetOfChar (c : Char) : Nat :=
  if 'A' ≤ c ∧ c ≤ 'Z' then c.toNat - 65
  else if 'a' ≤ c ∧ c ≤ 'z' then c.toNat - 97 + 26
  else if '0' ≤ c ∧ c ≤ '9' then c.toNat - 48 + 52
  else if c = '+' then 62
  else 63

/-- `Buffer.toString('base64')`: 3-byte groups become 4 alphabet
characters; a trailing 2-byte group becomes 3 characters plus `=`; a
trailing single byte becomes 2 characters plus `==`. -/
def b64Encode : List Nat → List Char
  | b1 :: b2 :: b3 :: rest =>
    charOfSextet (b1 / 4) ::
      charOfSextet ((b1 % 4) * 16 + b2 / 16) ::
        charOfSextet ((b2 % 16) * 4 + b3 / 64) ::
          charOfSextet (b3 % 64) :: b64Encode rest
  | [b1, b2] =>
    [charOfSextet (b1 / 4), charOfSextet ((b1 % 4) * 16 + b2 / 16),
      charOfSextet ((b2 % 16) * 4), '=']
  | [b1] =>
    [charOfSextet (b1 / 4), charOfSextet ((b1 % 4) * 16), '=', '=']
  | [] => []

/-- `Buffer.from(s, 'base64')` on canonical base64 text: 4-character
groups become 3 bytes; `=` padding trims the final group to 2 or 1
bytes. -/
def b64Decode : List Char → List Nat
  | a :: b :: c :: d :: rest =>
    if d = '=' then
      if c = '=' then
        [sextetOfChar a * 4 + sextetOfChar b / 16]
      else
        [sextetOfChar a * 4 + sextetOfChar b / 16,
          (sextetOfChar b % 16) * 16 + sextetOfChar c / 4]
    else
      (sextetOfChar a * 4 + sextetOfChar b / 16) ::
        ((sextetOfChar b % 16) * 16 + sextetOfChar c / 4) ::
          ((sextetOfChar c % 4) * 64 + sextetOfChar d) :: b64Decode rest
  | _ => []

theorem sextet_round : ∀ n : Nat, n < 64 →
    sextetOfChar (charOfSextet n) = n := by decide

theorem charOfSextet_ne_pad : ∀ n : Nat, n < 64 →
    charOfSextet n ≠ '=' := by decide

theorem b64_roundtrip (B : List Nat) (h : ∀ b ∈ B, b < 256) :
    b64Decode (b64Encode B) = B := by
  induction B using b64Encode.induct with
  | case1 b1 b2 b3 rest ih =>
    have h1 : b1 < 256 := h b1 (by simp)
    have h2 : b2 < 256 := h b2 (by simp)
    have h3 : b3 < 256 := h b3 (by simp)
    have hd : charOfSextet (b3 % 64) ≠ '=' :=
      charOfSextet_ne_pad _ (by omega)
    rw [b64Encode, b64Decode, if_neg hd]
    rw [sextet_round _ (by omega), sextet_round _ (by omega),
      sextet_round _ (by omega), sextet_round _ (by omega)]
    rw [ih (fun b hb => h b (by simp [hb]))]
    congr 1
    · omega
    congr 1
    · omega
    congr 1
    · omega
  | case2 b1 b2 =>
    have h1 : b1 < 256 := h b1 (by simp)
    have h2 : b2 < 256 := h b2 (by simp)
    have hc : charOfSextet ((b2 % 16) * 4) ≠ '=' :=
      charOfSextet_ne_pad _ (by omega)
    rw [b64Encode, b64Decode, if_pos rfl, if_neg hc]
    rw [sextet_round _ (by omega), sextet_round _ (by omega),
      sextet_round _ (by omega)]
    congr 1
    · omega
    congr 1
    · omega
  | case3 b1 =>
    have h1 : b1 < 256 := h b1 (by simp)
    rw [b64Encode, b64Decode, if_pos rfl, if_pos rfl]
    rw [sextet_round _ (by omega), sextet_round _ (by omega)]
    congr 1
    omega
  | case4 => simp [b64Encode, b64Decode]

/-- `forwardRequest` body handling: `body = bodyBuffer.toString('base64')`
when the buffer is non-empty, else the `body` field is absent. -/
def requestBodyField (bodyBuffer : List Nat) : Option (List Char) :=
  if bodyBuffer.length > 0 then some (b64Encode bodyBuffer) else none

/-- `forwardToLocal` body handling: decode the base64 `body` field into
`requestBody` and set the forwarded `content-length` header to its
length; with no body, `content-length` is dropped. -/
def decodeRequestBody : Option (List Char) → Option (List Nat × Nat)
  | some body =>
    let requestBody := b64Decode body
    some (requestBody, requestBody.length)
  | none => none

/-- C5: for every non-empty request body `B` of at most 1 MiB, the
Request message carries base64(B) in its `body` field, and the client
decodes it back byte-for-byte, setting `content-length` to `B`'s
length. -/
theorem C5_body_roundtrip (B : List Nat) (hne : B ≠ [])
    (_hlen : B.length ≤ 1024 * 1024) (hbytes : ∀ b ∈ B, b < 256) :
    requestBodyField B = some (b64Encode B) ∧
      decodeRequestBody (requestBodyField B) = some (B, B.length) := by
  have hpos : B.length > 0 := List.length_pos.mpr hne
  have hfield : requestBodyField B = some (b64Encode B) := by
    simp [requestBodyField, hpos]
  refine ⟨hfield, ?_⟩
  rw [hfield]
  simp [decodeRequestBody, b64_roundtrip B hbytes]

/-- Witness for C5 at the concrete body "hi" = [104, 105]. -/
theorem C5_body_roundtrip_witness :
    requestBodyField [104, 105] = some (b64Encode [104, 105]) ∧
      decodeRequestBody (requestBodyField [104, 105]) =
        some ([104, 105], 2) :=
  C5_body_roundtrip [104, 105] (by decide) (by decide) (by decide)

/-! ## Tunnel Registry (`src/server/tunnel-manager.ts`)

`TunnelManager.register` / `getTunnel` with the `tunnels` and `users`
database tables modelled as lists; a channel handle is a `ws` identifier
plus the inserted row id.  `now` stands for `Date.now()` and `nextId`
for the id the database assigns to the inserted row. -/

structure DbTunnel where
  id : Nat
  subdomain : String
  userId : Option Nat
  ipAddress : String
  isActive : Bool
  disconnectedAt : Option Nat
  connectedAt : Nat
  lastActivityAt : Nat
deriving DecidableEq

structure DbUser where
  id : Nat
  apiKey : String
  isActive : Bool
  tunnelLimit : Nat
deriving DecidableEq

structure TunnelHandle where
  ws : Nat
  tunnelId : Nat
deriving DecidableEq

structure ManagerState where
  activeTunnels : List (String × TunnelHandle)
  dbTunnels : List DbTunnel
  dbUsers : List DbUser
  now : Nat
  nextId : Nat
deriving DecidableEq

inductive RegisterResult
  | success (subdomain : String)
  | failure (error : String)
deriving DecidableEq

/-- `db('tunnels').where({ subdomain, is_active: true })
.whereNull('disconnected_at').first()`. -/
def findActiveDbTunnel (st : ManagerState) (subdomain : String) :
    Option DbTunnel :=
  st.dbTunnels.find?
    (fun t => t.subdomain == subdomain && t.isActive &&
      t.disconnectedAt == none)

/-- `db('users').where({ api_key: apiKey, is_active: true }).first()`. -/
def findActiveUser (st : ManagerState) (apiKey : String) : Option DbUser :=
  st.dbUsers.find? (fun u => u.apiKey == apiKey && u.isActive)

/-- `db('tunnels').where({ user_id: userId, is_active: true })
.whereNull('disconnected_at').count()`. -/
def activeTunnelCountFor (st : ManagerState) (userId : Nat) : Nat :=
  (st.dbTunnels.filter
    (fun t => t.userId == some userId && t.isActive &&
      t.disconnectedAt == none)).length

/-- The insert-and-set tail of `register`.  The migration
`20251016144507_create_default_table.js` declares
`tunnels.subdomain` UNIQUE, so `db('tunnels').insert` throws whenever
any row — active or not — already holds the subdomain; `register`'s
`try/catch` turns that into `'Registration failed'` without touching
`activeTunnels`.  Otherwise the row is created with
`connected_at = last_activity_at = now` and the channel stored in
`activeTunnels` keyed by the subdomain. -/
def registerInsert (st : ManagerState) (subdomain : String) (ws : Nat)
    (userId : Option Nat) (ip : String) : RegisterResult × ManagerState :=
  if st.dbTunnels.any (fun t => t.subdomain == subdomain) then
    (RegisterResult.failure "Registration failed", st)
  else
    (RegisterResult.success subdomain,
      { st with
        dbTunnels := st.dbTunnels ++
          [⟨st.nextId, subdomain, userId, ip, true, none, st.now, st.now⟩],
        activeTunnels := (subdomain, ⟨ws, st.nextId⟩) :: st.activeTunnels,
        nextId := st.nextId + 1 })

/-- `TunnelManager.register(subdomain, ws, apiKey, ip)`, run without
interleaving (its sequential semantics). -/
def register (st : ManagerState) (subdomain : String) (ws : Nat)
    (apiKey : Option String) (ip : String) :
    RegisterResult × ManagerState :=
  if (st.activeTunnels.lookup subdomain).isSome then
    (RegisterResult.failure "Subdomain already taken", st)
  else if (findActiveDbTunnel st subdomain).isSome then
    (RegisterResult.failure "Subdomain already taken", st)
  else
    match apiKey with
    | some k =>
      match findActiveUser st k with
      | none => (RegisterResult.failure "Invalid API key", st)
      | some user =>
        if user.tunnelLimit ≤ activeTunnelCountFor st user.id then
          (RegisterResult.failure "Tunnel limit reached", st)
        else registerInsert st subdomain ws (some user.id) ip
    | none => registerInsert st subdomain ws none ip

/-- `TunnelManager.getTunnel(subdomain)`. -/
def getTunnel (st : ManagerState) (subdomain : String) :
    Option TunnelHandle :=
  st.activeTunnels.lookup subdomain

theorem find?_append_none {α : Type} (p : α → Bool) (l1 l2 : List α)
    (h : l1.find? p = none) : (l1 ++ l2).find? p = l2.find? p := by
  induction l1 with
  | nil => rfl
  | cons a rest ih =>
    rw [List.find?_eq_none] at h
    have ha : p a = false := by
      rcases hb : p a
      · rfl
      · exact absurd hb (by simpa using h a (by simp))
    have hrest : rest.find? p = none := by
      rw [List.find?_eq_none]
      intro x hx
      exact h x (by simp [hx])
    rw [List.cons_append, List.find?_cons_of_neg _ (by simp [ha])]
    exact ih hrest

theorem findActiveDbTunnel_eq_none_of_any_false (st : ManagerState)
    (sub : String)
    (h : st.dbTunnels.any (fun t => t.subdomain == sub) = false) :
    findActiveDbTunnel st sub = none := by
  rw [findActiveDbTunnel, List.find?_eq_none]
  intro t ht hp
  rw [List.any_eq_false] at h
  simp only [Bool.and_eq_true] at hp
  exact h t ht hp.1.1

theorem registerInsert_of_fresh (st : ManagerState) (sub : String)
    (ws : Nat) (userId : Option Nat) (ip : String)
    (hany : st.dbTunnels.any (fun t => t.subdomain == sub) = false) :
    registerInsert st sub ws userId ip =
      (RegisterResult.success sub,
        { st with
          dbTunnels := st.dbTunnels ++
            [⟨st.nextId, sub, userId, ip, true, none, st.now, st.now⟩],
          activeTunnels := (sub, ⟨ws, st.nextId⟩) :: st.activeTunnels,
          nextId := st.nextId + 1 }) ∧
      findActiveDbTunnel (registerInsert st sub ws userId ip).2 sub =
        some ⟨st.nextId, sub, userId, ip, true, none, st.now, st.now⟩ := by
  have heq : registerInsert st sub ws userId ip =
      (RegisterResult.success sub,
        { st with
          dbTunnels := st.dbTunnels ++
            [⟨st.nextId, sub, userId, ip, true, none, st.now, st.now⟩],
          activeTunnels := (sub, ⟨ws, st.nextId⟩) :: st.activeTunnels,
          nextId := st.nextId + 1 }) := by
    simp [registerInsert, hany]
  refine ⟨heq, ?_⟩
  rw [heq]
  have hnone := findActiveDbTunnel_eq_none_of_any_false st sub hany
  unfold findActiveDbTunnel at hnone ⊢
  simp only
  rw [find?_append_none _ _ _ hnone]
  simp

/-- C4 counterexample: with memory empty and only an INACTIVE database
row for "myapp" — exactly the state `register` + `unregister` leaves,
since `unregister` only sets `is_active = false` and `disconnected_at` —
both uniqueness checks pass, yet the insert violates UNIQUE(subdomain)
and `register` returns 'Registration failed' instead of succeeding. -/
theorem C4_register_counterexample :
    getTunnel
        ⟨[], [⟨1, "myapp", none, "203.0.113.9", false, some 5, 0, 0⟩],
          [], 10, 2⟩ "myapp" = none ∧
    findActiveDbTunnel
        ⟨[], [⟨1, "myapp", none, "203.0.113.9", false, some 5, 0, 0⟩],
          [], 10, 2⟩ "myapp" = none ∧
    register
        ⟨[], [⟨1, "myapp", none, "203.0.113.9", false, some 5, 0, 0⟩],
          [], 10, 2⟩ "myapp" 7 none "203.0.113.9" =
      (RegisterResult.failure "Registration failed",
        ⟨[], [⟨1, "myapp", none, "203.0.113.9", false, some 5, 0, 0⟩],
          [], 10, 2⟩) :=
  ⟨rfl, rfl, rfl⟩

/-- C4 (amended): `register` fails with "Subdomain already taken" when
an active entry for the subdomain exists (in memory or in the
database); with an apiKey it fails with "Invalid API key" when no
active user matches and with "Tunnel limit reached" when the user's
live count has reached `tunnel_limit`; past those checks, if any
database row — even an inactive one left by a previous unregister —
still holds the subdomain, the insert violates UNIQUE(subdomain) and
`register` fails with "Registration failed"; only when no row holds the
subdomain does it succeed, inserting an entry keyed by the subdomain
with `connected_at = last_activity_at = now`, after which
`getTunnel(subdomain)` returns the channel. -/
theorem C4_register_amended :
    (∀ (st : ManagerState) (sub : String) (ws : Nat) (k : Option String)
        (ip : String),
      ((st.activeTunnels.lookup sub).isSome ∨
          (findActiveDbTunnel st sub).isSome) →
        register st sub ws k ip =
          (RegisterResult.failure "Subdomain already taken", st)) ∧
    (∀ (st : ManagerState) (sub : String) (ws : Nat) (k : String)
        (ip : String),
      st.activeTunnels.lookup sub = none →
      findActiveDbTunnel st sub = none →
      findActiveUser st k = none →
        register st sub ws (some k) ip =
          (RegisterResult.failure "Invalid API key", st)) ∧
    (∀ (st : ManagerState) (sub : String) (ws : Nat) (k : String)
        (ip : String) (u : DbUser),
      st.activeTunnels.lookup sub = none →
      findActiveDbTunnel st sub = none →
      findActiveUser st k = some u →
      u.tunnelLimit ≤ activeTunnelCountFor st u.id →
        register st sub ws (some k) ip =
          (RegisterResult.failure "Tunnel limit reached", st)) ∧
    (∀ (st : ManagerState) (sub : String) (ws : Nat) (ip : String),
      st.activeTunnels.lookup sub = none →
      findActiveDbTunnel st sub = none →
      st.dbTunnels.any (fun t => t.subdomain == sub) = true →
        register st sub ws none ip =
          (RegisterResult.failure "Registration failed", st)) ∧
    (∀ (st : ManagerState) (sub : String) (ws : Nat) (ip : String),
      st.activeTunnels.lookup sub = none →
      st.dbTunnels.any (fun t => t.subdomain == sub) = false →
        (register st sub ws none ip).1 = RegisterResult.success sub ∧
        getTunnel (register st sub ws none ip).2 sub =
          some ⟨ws, st.nextId⟩ ∧
        findActiveDbTunnel (register st sub ws none ip).2 sub =
          some ⟨st.nextId, sub, none, ip, true, none, st.now, st.now⟩) ∧
    (∀ (st : ManagerState) (sub : String) (ws : Nat) (k : String)
        (ip : String) (u : DbUser),
      st.activeTunnels.lookup sub = none →
      st.dbTunnels.any (fun t => t.subdomain == sub) = false →
      findActiveUser st k = some u →
      activeTunnelCountFor st u.id < u.tunnelLimit →
        (register st sub ws (some k) ip).1 = RegisterResult.success sub ∧
        getTunnel (register st sub ws (some k) ip).2 sub =
          some ⟨ws, st.nextId⟩ ∧
        findActiveDbTunnel (register st sub ws (some k) ip).2 sub =
          some ⟨st.nextId, sub, some u.id, ip, true, none, st.now,
            st.now⟩) := by
  refine ⟨?_, ?_, ?_, ?_, ?_, ?_⟩
  · intro st sub ws k ip h
    rcases h with h | h
    · simp [register, h]
    · unfold register
      by_cases hm : (st.activeTunnels.lookup sub).isSome
      · simp [hm]
      · simp [hm, h]
  · intro st sub ws k ip h1 h2 h3
    simp [register, h1, h2, h3]
  · intro st sub ws k ip u h1 h2 h3 h4
    simp [register, h1, h2, h3, h4]
  · intro st sub ws ip h1 h2 h3
    simp [register, h1, h2, registerInsert, h3]
  · intro st sub ws ip h1 hany
    have h2 := findActiveDbTunnel_eq_none_of_any_false st sub hany
    have hreg : register st sub ws none ip =
        registerInsert st sub ws none ip := by
      simp [register, h1, h2]
    obtain ⟨heq, hfind⟩ := registerInsert_of_fresh st sub ws none ip hany
    refine ⟨?_, ?_, ?_⟩
    · rw [hreg, heq]
    · rw [hreg, heq]
      simp [getTunnel, List.lookup]
    · rw [hreg]
      exact hfind
  · intro st sub ws k ip u h1 hany h3 h4
    have h2 := findActiveDbTunnel_eq_none_of_any_false st sub hany
    have hreg : register st sub ws (some k) ip =
        registerInsert st sub ws (some u.id) ip := by
      simp [register, h1, h2, h3, Nat.not_le.mpr h4]
    obtain ⟨heq, hfind⟩ :=
      registerInsert_of_fresh st sub ws (some u.id) ip hany
    refine ⟨?_, ?_, ?_⟩
    · rw [hreg, heq]
    · rw [hreg, heq]
      simp [getTunnel, List.lookup]
    · rw [hreg]
      exact hfind

/-- Witness for C4's amended statement on small concrete registries. -/
theorem C4_register_amended_witness :
    ((register ⟨[], [], [], 1700000000, 1⟩ "myapp" 5 none "127.0.0.1").1 =
        RegisterResult.success "myapp" ∧
      getTunnel
          (register ⟨[], [], [], 1700000000, 1⟩ "myapp" 5 none
            "127.0.0.1").2 "myapp" = some ⟨5, 1⟩ ∧
      findActiveDbTunnel
          (register ⟨[], [], [], 1700000000, 1⟩ "myapp" 5 none
            "127.0.0.1").2 "myapp" =
        some ⟨1, "myapp", none, "127.0.0.1", true, none, 1700000000,
          1700000000⟩) ∧
    register
        ⟨[], [⟨3, "blog", none, "198.51.100.4", false, some 9, 1, 1⟩],
          [], 20, 4⟩ "blog" 6 none "198.51.100.4" =
      (RegisterResult.failure "Registration failed",
        ⟨[], [⟨3, "blog", none, "198.51.100.4", false, some 9, 1, 1⟩],
          [], 20, 4⟩) :=
  ⟨C4_register_amended.2.2.2.2.1 ⟨[], [], [], 1700000000, 1⟩ "myapp" 5
      "127.0.0.1" rfl rfl,
   C4_register_amended.2.2.2.1
      ⟨[], [⟨3, "blog", none, "198.51.100.4", false, some 9, 1, 1⟩],
        [], 20, 4⟩ "blog" 6 "198.51.100.4" rfl rfl rfl⟩

/-! ## Concurrent registration (`src/server/tunnel-manager.ts`)

`register` is `async` and suspends at each `await db(...)`: the
in-memory uniqueness check, the database uniqueness check, the insert
and the final `activeTunnels.set` are separate event-loop blocks, and
the database serves each attempt's read/write at its own point of the
schedule.  Each suspension point is one micro-step here (apiKey absent,
as in scenario S2). -/

inductive RegPc
  | memCheck
  | dbRead
  | inspectRead (r : Option DbTunnel)
  | dbInsert
  | setMem (tid : Nat)
  | done (r : RegisterResult)
deriving DecidableEq

structure Attempt where
  pc : RegPc
  ws : Nat
deriving DecidableEq

/-- One micro-step of a suspended `register(sub, ws, null, ip)` call:
the in-memory `has` check, the `tunnels` uniqueness query, inspecting
its result, the insert — which, because the migration declares
`tunnels.subdomain` UNIQUE, throws when any row already holds the
subdomain, caught by `register`'s try/catch as 'Registration failed' —
and the `activeTunnels.set` with success return. -/
def regMicroStep (sub : String) (ip : String) (st : ManagerState)
    (a : Attempt) : ManagerState × Attempt :=
  match a.pc with
  | .memCheck =>
    if (st.activeTunnels.lookup sub).isSome then
      (st, { a with pc := .done (.failure "Subdomain already taken") })
    else (st, { a with pc := .dbRead })
  | .dbRead =>
    (st, { a with pc := .inspectRead (findActiveDbTunnel st sub) })
  | .inspectRead r =>
    if r.isSome then
      (st, { a with pc := .done (.failure "Subdomain already taken") })
    else (st, { a with pc := .dbInsert })
  | .dbInsert =>
    if st.dbTunnels.any (fun t => t.subdomain == sub) then
      (st, { a with pc := .done (.failure "Registration failed") })
    else
      ({ st with
          dbTunnels := st.dbTunnels ++
            [⟨st.nextId, sub, none, ip, true, none, st.now, st.now⟩],
          nextId := st.nextId + 1 },
        { a with pc := .setMem st.nextId })
  | .setMem tid =>
    ({ st with activeTunnels := (sub, ⟨a.ws, tid⟩) :: st.activeTunnels },
      { a with pc := .done (.success sub) })
  | .done _ => (st, a)

/-- Run two concurrent attempts on the same subdomain under a schedule
(`false` steps the first attempt, `true` the second). -/
def runTwo (sub ip : String) (st : ManagerState) (p q : Attempt) :
    List Bool → ManagerState × Attempt × Attempt
  | [] => (st, p, q)
  | false :: rest =>
    let r := regMicroStep sub ip st p
    runTwo sub ip r.1 r.2 q rest
  | true :: rest =>
    let r := regMicroStep sub ip st q
    runTwo sub ip r.1 p r.2 rest

/-- An attempt that has committed its insert: it has reached
`activeTunnels.set` or already returned success. -/
def committedB (a : Attempt) : Bool :=
  match a.pc with
  | .setMem _ => true
  | .done (.success _) => true
  | _ => false

/-- Number of database rows holding the subdomain (any status). -/
def subRowCount (st : ManagerState) (sub : String) : Nat :=
  (st.dbTunnels.filter (fun t => t.subdomain == sub)).length

/-- Race invariant for two attempts on `sub`: each committed attempt
contributed exactly one row for `sub`, and — because the UNIQUE
constraint rejects the second insert — at most one attempt is ever
committed. -/
def RaceInv (sub : String) (st : ManagerState) (p q : Attempt) : Prop :=
  subRowCount st sub =
      (if committedB p then 1 else 0) + (if committedB q then 1 else 0) ∧
    ¬(committedB p = true ∧ committedB q = true)

theorem subRowCount_zero_of_any_false (st : ManagerState) (sub : String)
    (h : st.dbTunnels.any (fun t => t.subdomain == sub) = false) :
    subRowCount st sub = 0 := by
  rw [subRowCount, List.length_eq_zero, List.filter_eq_nil]
  rw [List.any_eq_false] at h
  exact h

set_option linter.unnecessarySimpa false in
theorem regMicroStep_inv (sub ip : String) (st : ManagerState)
    (a b : Attempt) (h : RaceInv sub st a b) :
    RaceInv sub (regMicroStep sub ip st a).1
      (regMicroStep sub ip st a).2 b := by
  obtain ⟨hc, hboth⟩ := h
  cases a with
  | mk pc ws =>
    cases pc with
    | memCheck =>
      simp only [regMicroStep]
      split_ifs <;>
        exact ⟨by simpa [committedB] using hc,
          by simpa [committedB] using hboth⟩
    | dbRead =>
      exact ⟨by simpa [regMicroStep, committedB] using hc,
        by simpa [regMicroStep, committedB] using hboth⟩
    | inspectRead r =>
      simp only [regMicroStep]
      split_ifs <;>
        exact ⟨by simpa [committedB] using hc,
          by simpa [committedB] using hboth⟩
    | dbInsert =>
      simp only [regMicroStep]
      split_ifs with hany
      · exact ⟨by simpa [committedB] using hc,
          by simpa [committedB] using hboth⟩
      · have hanyf : st.dbTunnels.any (fun t => t.subdomain == sub)
            = false := by
          cases hx : st.dbTunnels.any (fun t => t.subdomain == sub)
          · rfl
          · exact absurd hx hany
        have hzero := subRowCount_zero_of_any_false st sub hanyf
        have hA : committedB ⟨RegPc.dbInsert, ws⟩ = false := rfl
        rw [hA] at hc
        have hbq : committedB b = false := by
          cases hx : committedB b
          · rfl
          · exfalso
            rw [hx] at hc
            simp at hc
            omega
        rw [hbq] at hc
        simp at hc
        have hB : committedB ⟨RegPc.setMem st.nextId, ws⟩ = true := rfl
        refine ⟨?_, ?_⟩
        · rw [hB, hbq]
          simp only [subRowCount, List.filter_append,
            List.length_append] at hc ⊢
          rw [hc]
          simp
        · rw [hbq]
          simp
    | setMem tid =>
      exact ⟨by simpa [regMicroStep, committedB] using hc,
        by simpa [regMicroStep, committedB] using hboth⟩
    | done r =>
      cases r with
      | success s =>
        exact ⟨by simpa [regMicroStep, committedB] using hc,
          by simpa [regMicroStep, committedB] using hboth⟩
      | failure e =>
        exact ⟨by simpa [regMicroStep, committedB] using hc,
          by simpa [regMicroStep, committedB] using hboth⟩

theorem RaceInv_swap {sub : String} {st : ManagerState} {p q : Attempt}
    (h : RaceInv sub st p q) : RaceInv sub st q p := by
  obtain ⟨hc, hboth⟩ := h
  exact ⟨by omega, fun hpq => hboth ⟨hpq.2, hpq.1⟩⟩

theorem runTwo_inv (sub ip : String) :
    ∀ (sched : List Bool) (st : ManagerState) (p q : Attempt),
      RaceInv sub st p q →
      RaceInv sub (runTwo sub ip st p q sched).1
        (runTwo sub ip st p q sched).2.1
        (runTwo sub ip st p q sched).2.2 := by
  intro sched
  induction sched with
  | nil => intro st p q h; exact h
  | cons c rest ih =>
    intro st p q h
    cases c
    · exact ih _ _ _ (regMicroStep_inv sub ip st p q h)
    · exact ih _ _ _
        (RaceInv_swap (regMicroStep_inv sub ip st q p (RaceInv_swap h)))

/-- C3 counterexample: under the fully interleaved schedule — both
in-memory and both database uniqueness checks pass before either insert
lands — the winner succeeds but the loser's insert hits the
UNIQUE(subdomain) constraint and `register` returns
'Registration failed', NOT the claimed SubdomainTaken error. -/
theorem C3_register_race_counterexample :
    (runTwo "dup" "203.0.113.9" ⟨[], [], [], 0, 1⟩
        ⟨RegPc.memCheck, 1⟩ ⟨RegPc.memCheck, 2⟩
        [false, true, false, true, false, true, false, true, false,
          true]).2.1.pc = RegPc.done (RegisterResult.success "dup") ∧
    (runTwo "dup" "203.0.113.9" ⟨[], [], [], 0, 1⟩
        ⟨RegPc.memCheck, 1⟩ ⟨RegPc.memCheck, 2⟩
        [false, true, false, true, false, true, false, true, false,
          true]).2.2.pc =
      RegPc.done (RegisterResult.failure "Registration failed") ∧
    RegPc.done (RegisterResult.failure "Registration failed") ≠
      RegPc.done (RegisterResult.failure "Subdomain already taken") :=
  ⟨rfl, rfl, by decide⟩

/-- C3 (amended): for concurrent register attempts on the same
subdomain, the uniqueness check and insert are NOT atomic, but the
database's UNIQUE(subdomain) constraint makes the first insert win:
under every schedule at most one attempt succeeds and at most one row
for the subdomain exists at any instant; a loser that observes the
winner in a check fails with SubdomainTaken, while a loser whose checks
raced ahead of the winner's insert fails with RegistrationFailed
instead. -/
theorem C3_register_amended :
    (∀ (sched : List Bool) (s1 s2 : String),
      ¬((runTwo "dup" "203.0.113.9" ⟨[], [], [], 0, 1⟩
            ⟨RegPc.memCheck, 1⟩ ⟨RegPc.memCheck, 2⟩ sched).2.1.pc =
          RegPc.done (RegisterResult.success s1) ∧
        (runTwo "dup" "203.0.113.9" ⟨[], [], [], 0, 1⟩
            ⟨RegPc.memCheck, 1⟩ ⟨RegPc.memCheck, 2⟩ sched).2.2.pc =
          RegPc.done (RegisterResult.success s2))) ∧
    (∀ sched : List Bool,
      subRowCount (runTwo "dup" "203.0.113.9" ⟨[], [], [], 0, 1⟩
        ⟨RegPc.memCheck, 1⟩ ⟨RegPc.memCheck, 2⟩ sched).1 "dup" ≤ 1) ∧
    (runTwo "dup" "203.0.113.9" ⟨[], [], [], 0, 1⟩
        ⟨RegPc.memCheck, 1⟩ ⟨RegPc.memCheck, 2⟩
        [false, true, false, true, false, true, false, true, false,
          true]).2.1.pc = RegPc.done (RegisterResult.success "dup") ∧
    (runTwo "dup" "203.0.113.9" ⟨[], [], [], 0, 1⟩
        ⟨RegPc.memCheck, 1⟩ ⟨RegPc.memCheck, 2⟩
        [false, true, false, true, false, true, false, true, false,
          true]).2.2.pc =
      RegPc.done (RegisterResult.failure "Registration failed") ∧
    (runTwo "dup" "203.0.113.9" ⟨[], [], [], 0, 1⟩
        ⟨RegPc.memCheck, 1⟩ ⟨RegPc.memCheck, 2⟩
        [false, false, false, false, false, true]).2.1.pc =
      RegPc.done (RegisterResult.success "dup") ∧
    (runTwo "dup" "203.0.113.9" ⟨[], [], [], 0, 1⟩
        ⟨RegPc.memCheck, 1⟩ ⟨RegPc.memCheck, 2⟩
        [false, false, false, false, false, true]).2.2.pc =
      RegPc.done (RegisterResult.failure "Subdomain already taken") := by
  have hinit : RaceInv "dup" ⟨[], [], [], 0, 1⟩
      ⟨RegPc.memCheck, 1⟩ ⟨RegPc.memCheck, 2⟩ :=
    ⟨rfl, by simp [committedB]⟩
  refine ⟨?_, ?_, rfl, rfl, rfl, rfl⟩
  · intro sched s1 s2 hsucc
    obtain ⟨h1, h2⟩ := hsucc
    obtain ⟨-, hboth⟩ :=
      runTwo_inv "dup" "203.0.113.9" sched _ _ _ hinit
    exact hboth ⟨by simp [committedB, h1], by simp [committedB, h2]⟩
  · intro sched
    obtain ⟨hc, hboth⟩ :=
      runTwo_inv "dup" "203.0.113.9" sched _ _ _ hinit
    rcases hx : committedB (runTwo "dup" "203.0.113.9"
        ⟨[], [], [], 0, 1⟩ ⟨RegPc.memCheck, 1⟩ ⟨RegPc.memCheck, 2⟩
        sched).2.1 <;>
      rcases hy : committedB (runTwo "dup" "203.0.113.9"
          ⟨[], [], [], 0, 1⟩ ⟨RegPc.memCheck, 1⟩ ⟨RegPc.memCheck, 2⟩
          sched).2.2 <;>
      rw [hx, hy] at hc hboth
    · simp at hc
      omega
    · simp at hc
      omega
    · simp at hc
      omega
    · simp at hboth

/-- Witness for C3's amended statement at a concrete schedule. -/
theorem C3_register_amended_witness :
    ¬((runTwo "dup" "203.0.113.9" ⟨[], [], [], 0, 1⟩
          ⟨RegPc.memCheck, 1⟩ ⟨RegPc.memCheck, 2⟩
          [false, true, false, true, false, true, false, true, false,
            true]).2.1.pc = RegPc.done (RegisterResult.success "dup") ∧
      (runTwo "dup" "203.0.113.9" ⟨[], [], [], 0, 1⟩
          ⟨RegPc.memCheck, 1⟩ ⟨RegPc.memCheck, 2⟩
          [false, true, false, true, false, true, false, true, false,
            true]).2.2.pc = RegPc.done (RegisterResult.success "dup")) :=
  C3_register_amended.1
    [false, true, false, true, false, true, false, true, false, true]
    "dup" "dup"

/-! ## Control-session message rate limit (`src/server/websocket.ts`)

Per connection, `messageCount` is incremented on each message and reset
to 0 by a `setInterval(..., 1000)`; a message with count above 100
triggers `ws.close(1008, 'Rate limit exceeded')` and is not processed.
Messages are identified by their arrival time in ms since the connection
opened (so ticks fall at multiples of 1000, and two messages share a
counter window iff they share `t / 1000`). -/

/-- The fixed 1-second window an arrival time falls into. -/
def windowOf (t : Nat) : Nat := t / 1000

/-- Number of messages of the trace in fixed window `w`. -/
def windowCount (ts : List Nat) (w : Nat) : Nat :=
  (ts.filter (fun t => windowOf t == w)).length

structure RateLimiterResult where
  processed : List Nat
  closed : Option (Nat × String)
deriving DecidableEq

/-- The per-message handler run over a timed trace, carrying the current
window and the counter value: increment (the interval has reset the
counter whenever a later window has begun), close with
1008 "Rate limit exceeded" when the count exceeds 100 — dropping that
message — and otherwise process the message and continue. -/
def rateLimitGo (curWin count : Nat) : List Nat → RateLimiterResult
  | [] => ⟨[], none⟩
  | t :: rest =>
    let w := windowOf t
    let c := (if w = curWin then count else 0) + 1
    if 100 < c then ⟨[], some (1008, "Rate limit exceeded")⟩
    else
      let r := rateLimitGo w c rest
      ⟨t :: r.processed, r.closed⟩

/-- The rate limiter from connection open (`messageCount = 0`). -/
def rateLimitRun (ts : List Nat) : RateLimiterResult :=
  rateLimitGo 0 0 ts

theorem windowOf_mono {a b : Nat} (h : a ≤ b) : windowOf a ≤ windowOf b :=
  Nat.div_le_div_right h

theorem windowCount_cons (t : Nat) (ts : List Nat) (w : Nat) :
    windowCount (t :: ts) w =
      (if windowOf t = w then 1 else 0) + windowCount ts w := by
  by_cases h : windowOf t = w
  · simp only [windowCount, List.filter_cons, h]
    simp [Nat.add_comm]
  · simp [windowCount, List.filter_cons, h]

theorem windowCount_zero_of_lt (ts : List Nat) (w : Nat)
    (h : ∀ t ∈ ts, w < windowOf t) : windowCount ts w = 0 := by
  induction ts with
  | nil => rfl
  | cons t rest ih =>
    rw [windowCount_cons, if_neg (by have := h t (by simp); omega)]
    have := ih fun x hx => h x (by simp [hx])
    omega

theorem rateLimitGo_no_breach : ∀ (ts : List Nat) (curWin count : Nat),
    ts.Sorted (· ≤ ·) → (∀ t ∈ ts, curWin ≤ windowOf t) →
    count + windowCount ts curWin ≤ 100 →
    (∀ w, curWin < w → windowCount ts w ≤ 100) →
    rateLimitGo curWin count ts = ⟨ts, none⟩ := by
  intro ts
  induction ts with
  | nil => intro curWin count _ _ _ _; rfl
  | cons t rest ih =>
    intro curWin count hs hge hcur hother
    rw [List.sorted_cons] at hs
    obtain ⟨hle, hrest⟩ := hs
    simp only [rateLimitGo]
    by_cases hw : windowOf t = curWin
    · rw [windowCount_cons, if_pos hw] at hcur
      have hrec := ih curWin (count + 1) hrest
        (fun x hx => hge x (by simp [hx])) (by omega)
        (fun w hw' => by
          have := hother w hw'
          rw [windowCount_cons] at this
          omega)
      rw [if_pos hw, if_neg (by omega), hw, hrec]
    · have hgt : curWin < windowOf t :=
        lt_of_le_of_ne (hge t (by simp)) (fun h => hw h.symm)
      have hcnt : 1 + windowCount rest (windowOf t) ≤ 100 := by
        have := hother (windowOf t) hgt
        rw [windowCount_cons, if_pos rfl] at this
        omega
      have hrec := ih (windowOf t) 1 hrest
        (fun x hx => windowOf_mono (hle x hx)) hcnt
        (fun w hw' => by
          have := hother w (by omega)
          rw [windowCount_cons, if_neg (by omega)] at this
          omega)
      rw [if_neg hw, if_neg (by omega)]
      rw [show (0 + 1 : Nat) = 1 from rfl, hrec]

theorem rateLimitGo_breach : ∀ (ts : List Nat) (curWin count : Nat),
    ts.Sorted (· ≤ ·) → (∀ t ∈ ts, curWin ≤ windowOf t) → count ≤ 100 →
    (100 < count + windowCount ts curWin ∨
      ∃ w, curWin < w ∧ 100 < windowCount ts w) →
    (rateLimitGo curWin count ts).closed =
        some (1008, "Rate limit exceeded") ∧
      (rateLimitGo curWin count ts).processed.length < ts.length := by
  intro ts
  induction ts with
  | nil =>
    intro curWin count _ _ hcnt hbr
    rcases hbr with h | ⟨w, -, h⟩
    · exact absurd h (by simp [windowCount]; omega)
    · exact absurd h (by simp [windowCount])
  | cons t rest ih =>
    intro curWin count hs hge hcnt hbr
    rw [List.sorted_cons] at hs
    obtain ⟨hle, hrest⟩ := hs
    simp only [rateLimitGo]
    by_cases hw : windowOf t = curWin
    · rw [if_pos hw]
      by_cases hc : 100 < count + 1
      · rw [if_pos hc]
        exact ⟨rfl, by simp⟩
      · rw [if_neg hc]
        have hside : 100 < count + 1 + windowCount rest curWin ∨
            ∃ w, curWin < w ∧ 100 < windowCount rest w := by
          rcases hbr with h | ⟨w', hw', h⟩
          · rw [windowCount_cons, if_pos hw] at h
            exact Or.inl (by omega)
          · rw [windowCount_cons, if_neg (by omega)] at h
            exact Or.inr ⟨w', hw', by omega⟩
        have hrec := ih curWin (count + 1) hrest
          (fun x hx => hge x (by simp [hx])) (by omega) hside
        rw [hw]
        refine ⟨hrec.1, ?_⟩
        have := hrec.2
        simp only [List.length_cons]
        omega
    · have hgt : curWin < windowOf t :=
        lt_of_le_of_ne (hge t (by simp)) (fun h => hw h.symm)
      rw [if_neg hw]
      rw [if_neg (by omega : ¬(100 < (0 : Nat) + 1))]
      have hside : 100 < 1 + windowCount rest (windowOf t) ∨
          ∃ w, windowOf t < w ∧ 100 < windowCount rest w := by
        rcases hbr with h | ⟨w', hw', h⟩
        · rw [windowCount_cons, if_neg hw] at h
          have hzero : windowCount rest curWin = 0 :=
            windowCount_zero_of_lt rest curWin
              (fun x hx => lt_of_lt_of_le hgt (windowOf_mono (hle x hx)))
          omega
        · rcases lt_trichotomy w' (windowOf t) with hlt | rfl | hgt'
          · rw [windowCount_cons, if_neg (by omega)] at h
            have hzero : windowCount rest w' = 0 :=
              windowCount_zero_of_lt rest w'
                (fun x hx =>
                  lt_of_lt_of_le hlt (windowOf_mono (hle x hx)))
            omega
          · rw [windowCount_cons, if_pos rfl] at h
            exact Or.inl (by omega)
          · rw [windowCount_cons, if_neg (by omega)] at h
            exact Or.inr ⟨w', hgt', by omega⟩
      have hrec := ih (windowOf t) 1 hrest
        (fun x hx => windowOf_mono (hle x hx)) (by omega) hside
      rw [show (0 + 1 : Nat) = 1 from rfl]
      refine ⟨hrec.1, ?_⟩
      have := hrec.2
      simp only [List.length_cons]
      omega

/-- C10 counterexample: 60 messages at t = 950 ms and 60 at t = 1050 ms
put 120 messages inside the rolling 1-second window [950, 1950), yet the
counter — reset at the t = 1000 tick — never exceeds 60, so the server
processes every message and does not close the channel. -/
theorem C10_rate_limit_counterexample :
    100 < ((List.replicate 60 950 ++ List.replicate 60 1050).filter
        (fun t => 950 ≤ t && t < 1950)).length ∧
    rateLimitRun (List.replicate 60 950 ++ List.replicate 60 1050) =
      ⟨List.replicate 60 950 ++ List.replicate 60 1050, none⟩ := by
  exact ⟨by decide, by decide⟩

/-- C10 (amended): the per-connection counter is reset every second
(fixed windows), not rolling: when every fixed 1-second window holds at
most 100 messages, all messages are processed and the channel stays
open; when more than 100 messages arrive within one fixed window, the
server closes the channel with code 1008 "Rate limit exceeded" and the
breaching message is not processed. -/
theorem C10_rate_limit_amended :
    (∀ ts : List Nat, ts.Sorted (· ≤ ·) →
      (∀ w, windowCount ts w ≤ 100) →
        rateLimitRun ts = ⟨ts, none⟩) ∧
    (∀ ts : List Nat, ts.Sorted (· ≤ ·) →
      (∃ w, 100 < windowCount ts w) →
        (rateLimitRun ts).closed = some (1008, "Rate limit exceeded") ∧
          (rateLimitRun ts).processed.length < ts.length) := by
  constructor
  · intro ts hs hcnt
    exact rateLimitGo_no_breach ts 0 0 hs (fun t _ => Nat.zero_le _)
      (by have := hcnt 0; omega) (fun w _ => hcnt w)
  · intro ts hs ⟨w, hw⟩
    refine rateLimitGo_breach ts 0 0 hs (fun t _ => Nat.zero_le _)
      (by omega) ?_
    rcases Nat.eq_zero_or_pos w with rfl | hpos
    · exact Or.inl (by omega)
    · exact Or.inr ⟨w, hpos, hw⟩

/-- Witness for C10's amended statement at concrete traces. -/
theorem C10_rate_limit_amended_witness :
    rateLimitRun [10, 20, 1500] = ⟨[10, 20, 1500], none⟩ ∧
    (rateLimitRun (List.replicate 101 5)).closed =
      some (1008, "Rate limit exceeded") :=
  ⟨C10_rate_limit_amended.1 [10, 20, 1500] (by decide)
      (fun w => le_trans (List.length_filter_le _ _) (by decide)),
   (C10_rate_limit_amended.2 (List.replicate 101 5) (by decide)
      ⟨0, by decide⟩).1⟩

end Tunl
